import Mathlib

/-!
Verification development for the `ray` ray tracer (Rust sources under src/).

The embedding models `f64` scalars by `ℚ` (exact arithmetic; the spec states
all correctness properties modulo a fixed epsilon of 1e-5, and no claim here
depends on rounding).  The two `f64` operations with no exact rational
counterpart, `sqrt` and `powf`, are threaded through every definition as an
explicit `FloatOps` dictionary, so all definitions stay computable and
concrete witnesses can pick an interpretation that is exact on the inputs
they touch.  IEEE special values (infinities and NaN) appear in this code
base only in the cube slab test (`check_axis` multiplies by `f64::INFINITY`)
and in the cylinder bounds (defaults `NEG_INFINITY`/`INFINITY`); those
places use the extended scalar type `FVal` which models the IEEE behaviour
of exactly the operations the source performs on such values.

Rust `PartialEq` implementations are embedded as explicit `Bool`-valued
functions (`rtEqB`, `matrixEqB`, `materialEqB`, `shapeEqB`,
`intersectionEqB`) because most of them are epsilon comparisons, not
structural equality.
-/

set_option maxHeartbeats 1000000
set_option maxRecDepth 4000

namespace RayT

/-- Epsilon used throughout the source (`let epsilon: f64 = 0.00001`). -/
def EPS : ℚ := 1 / 100000

/-- Dictionary for the two f64 operations with no exact rational model:
`f64::sqrt` and `f64::powf` (the latter only reaches non-integer exponents
through `Material::lighting`, where the exponent is `shininess`).  Integer
powers written `powf(2.0)` in the source are embedded as exact squaring. -/
structure FloatOps where
  sqrtf : ℚ → ℚ
  powf : ℚ → ℚ → ℚ

/-- Extended scalar modeling the f64 values that flow through the cube slab
test and the cylinder bounds: finite rationals, the two infinities, NaN. -/
inductive FVal where
  | num (q : ℚ)
  | inf
  | ninf
  | nan
deriving DecidableEq

namespace FVal

/-- IEEE `<` on extended values: any comparison involving NaN is false,
`-inf < q < inf` for finite q, and an infinity is not below itself. -/
def flt : FVal → FVal → Bool
  | num a, num b => a < b
  | num _, inf => true
  | ninf, num _ => true
  | ninf, inf => true
  | _, _ => false

/-- IEEE `>` on extended values, defined by swapping `flt`. -/
def fgt (a b : FVal) : Bool := flt b a

/-- IEEE multiplication of a finite rational by `f64::INFINITY`: the sign of
the rational is preserved, and `0 * INFINITY` is NaN. -/
def mulInf (q : ℚ) : FVal :=
  if q > 0 then inf else if q < 0 then ninf else nan

/-- Projection of an extended value back into the rational scalar model;
infinities and NaN have no rational counterpart and are truncated to 0.
Only the `Cube` arm of `Shape.intersect` uses this (its exact extended-value
behaviour is the subject of `cubeLocal` below, which keeps `FVal` results). -/
def toQ : FVal → ℚ
  | num q => q
  | _ => 0

end FVal

/-- Four-component tuple (`raytuple.rs`): x, y, z and homogeneous w. -/
structure RayTuple where
  x : ℚ
  y : ℚ
  z : ℚ
  w : ℚ
deriving DecidableEq

namespace RayTuple

/-- Constructor `RayTuple::new`. -/
def new (x y z w : ℚ) : RayTuple := ⟨x, y, z, w⟩

/-- Constructor `RayTuple::zero`. -/
def zero : RayTuple := ⟨0, 0, 0, 0⟩

/-- Constructor `RayTuple::point`: w = 1. -/
def point (x y z : ℚ) : RayTuple := ⟨x, y, z, 1⟩

/-- Constructor `RayTuple::vector`: w = 0. -/
def vector (x y z : ℚ) : RayTuple := ⟨x, y, z, 0⟩

instance : Add RayTuple := ⟨fun a b => ⟨a.x + b.x, a.y + b.y, a.z + b.z, a.w + b.w⟩⟩

instance : Sub RayTuple := ⟨fun a b => ⟨a.x - b.x, a.y - b.y, a.z - b.z, a.w - b.w⟩⟩

instance : Neg RayTuple := ⟨fun a => ⟨-a.x, -a.y, -a.z, -a.w⟩⟩

instance : HMul RayTuple ℚ RayTuple := ⟨fun a s => ⟨a.x * s, a.y * s, a.z * s, a.w * s⟩⟩

instance : HDiv RayTuple ℚ RayTuple := ⟨fun a s => ⟨a.x / s, a.y / s, a.z / s, a.w / s⟩⟩

/-- Dot product (`RayTuple::dot`). -/
def dot (a b : RayTuple) : ℚ := a.x * b.x + a.y * b.y + a.z * b.z + a.w * b.w

/-- Magnitude (`RayTuple::magnitude`): square root of the sum of squares;
`powf(2.0)` in the source is exact squaring. -/
def magnitude (ops : FloatOps) (a : RayTuple) : ℚ :=
  ops.sqrtf (a.x ^ 2 + a.y ^ 2 + a.z ^ 2 + a.w ^ 2)

/-- Normalization (`RayTuple::normalize`): divide every component by the
magnitude. -/
def normalize (ops : FloatOps) (a : RayTuple) : RayTuple :=
  let m := magnitude ops a
  ⟨a.x / m, a.y / m, a.z / m, a.w / m⟩

/-- Modelled from the spec: `RayTuple::reflect` is called by
`prepare_computations` and `Material::lighting` but its body is not part of
the excerpt; spec section 8 fixes it through the standard reflection
examples (`reflect(vector(1,-1,0), vector(0,1,0)) == vector(1,1,0)`), i.e.
`v - normal * 2 * dot(v, normal)`. -/
def reflect (v normal : RayTuple) : RayTuple :=
  v - normal * (2 * dot v normal)

/-- The `PartialEq` implementation of `raytuple.rs` (lines 76-84): strict
1e-5 tolerance on x, y and z; the w component is not compared. -/
def rtEqB (a b : RayTuple) : Bool :=
  |a.x - b.x| < EPS ∧ |a.y - b.y| < EPS ∧ |a.z - b.z| < EPS

end RayTuple

/-- Modelled from the spec: the color type lives in `color.rs`, which is not
part of the excerpt; per spec sections 2-3 and 6 colors are 3-component
records with componentwise add/sub, scalar multiply and componentwise
(Hadamard) multiply, compared with the same 1e-5 epsilon as tuples. -/
structure Color where
  red : ℚ
  green : ℚ
  blue : ℚ
deriving DecidableEq

namespace Color

/-- Constructor `Color::new`. -/
def new (r g b : ℚ) : Color := ⟨r, g, b⟩

instance : Add Color := ⟨fun a b => ⟨a.red + b.red, a.green + b.green, a.blue + b.blue⟩⟩

instance : Sub Color := ⟨fun a b => ⟨a.red - b.red, a.green - b.green, a.blue - b.blue⟩⟩

instance : HMul Color ℚ Color := ⟨fun a s => ⟨a.red * s, a.green * s, a.blue * s⟩⟩

instance : HMul Color Color Color :=
  ⟨fun a b => ⟨a.red * b.red, a.green * b.green, a.blue * b.blue⟩⟩

/-- Modelled from the spec: color equality uses the fixed 1e-5 epsilon. -/
def colorEqB (a b : Color) : Bool :=
  |a.red - b.red| < EPS ∧ |a.green - b.green| < EPS ∧ |a.blue - b.blue| < EPS

end Color

/-- The 4x4 matrix of `matrix.rs`: a size tag (2, 3 or 4) plus a 4x4 grid of
scalars.  The grid is a total function on naturals with all entries outside
the 4x4 range equal to 0, matching the zero-initialised `[[f64; 4]; 4]`. -/
structure Matrix where
  size : ℕ
  m : ℕ → ℕ → ℚ

namespace Matrix

/-- Constructor `Matrix::new(size)`: zero-filled grid. -/
def new (size : ℕ) : Matrix := ⟨size, fun _ _ => 0⟩

/-- Single-entry update, the model of the `m[r][c] = v` assignments used by
the transform constructors. -/
def set (A : Matrix) (r c : ℕ) (v : ℚ) : Matrix :=
  ⟨A.size, fun i j => if i = r ∧ j = c then v else A.m i j⟩

/-- Constructor `Matrix::new_matrix4`: size 4 with the given 4x4 entries. -/
def newMatrix4 (f : ℕ → ℕ → ℚ) : Matrix :=
  ⟨4, fun i j => if i < 4 ∧ j < 4 then f i j else 0⟩

/-- Constructor `Matrix::identity`. -/
def identity : Matrix :=
  newMatrix4 (fun i j => if i = j then 1 else 0)

/-- Transpose (`Matrix::transpose`): the full 4x4 grid is rebuilt from the
flipped indices, keeping the size tag. -/
def transpose (A : Matrix) : Matrix :=
  ⟨A.size, fun i j => if i < 4 ∧ j < 4 then A.m j i else 0⟩

/-- Submatrix (`Matrix::submatrix`): drops one row and one column.  The
source iterates i, j over 0..3 with skip counters `sh_i`/`sh_j` that jump
over the removed row/column; the skip counters compute `i + 1` once `i` has
reached the removed index. -/
def submatrix (A : Matrix) (row col : ℕ) : Matrix :=
  ⟨A.size - 1, fun i j =>
    if i < 3 ∧ j < 3 then
      A.m (if row ≤ i then i + 1 else i) (if col ≤ j then j + 1 else j)
    else 0⟩

/-- Determinant by cofactor expansion along row 0 (`Matrix::determinant`).
The source recurses through `cofactor`/`minor`/`submatrix` with the size
shrinking by one at each level; the fuel parameter mirrors that decrease
(`determinant` below supplies `size` as fuel, which is more than the
`size - 2` levels the recursion ever needs, so the 0-fuel arm is dead
code for every matrix the program builds). -/
def detFuel : ℕ → Matrix → ℚ
  | 0, _ => 0
  | fuel + 1, A =>
    if A.size = 2 then A.m 0 0 * A.m 1 1 - A.m 0 1 * A.m 1 0
    else
      (List.range A.size).foldl
        (fun det col =>
          det + A.m 0 col *
            (if (0 + col) % 2 = 1 then -(detFuel fuel (A.submatrix 0 col))
             else detFuel fuel (A.submatrix 0 col)))
        0

/-- Determinant entry point (`Matrix::determinant`). -/
def determinant (A : Matrix) : ℚ := detFuel A.size A

/-- Minor (`Matrix::minor`): determinant of the submatrix. -/
def minor (A : Matrix) (row col : ℕ) : ℚ := determinant (A.submatrix row col)

/-- Cofactor (`Matrix::cofactor`): minor with the checkerboard sign. -/
def cofactor (A : Matrix) (row col : ℕ) : ℚ :=
  if (row + col) % 2 = 1 then -(A.minor row col) else A.minor row col

/-- Invertibility test (`Matrix::invertible`): nonzero determinant. -/
def invertible (A : Matrix) : Bool := determinant A ≠ 0

/-- Inverse (`Matrix::inverse`): `None` for a zero determinant, otherwise
the transposed cofactor grid divided by the determinant (the source writes
`m2[col][row] = cofactor(row, col) / det` for row, col below `size`). -/
def inverse (A : Matrix) : Option Matrix :=
  if invertible A then
    some ⟨A.size, fun i j =>
      if i < A.size ∧ j < A.size then A.cofactor j i / determinant A else 0⟩
  else none

/-- Translation transform (`Matrix::translation`): identity with the last
column of the upper 3 rows replaced, built by the same three assignments. -/
def translation (x y z : ℚ) : Matrix :=
  ((identity.set 0 3 x).set 1 3 y).set 2 3 z

/-- Scaling transform (`Matrix::scaling`): identity with the diagonal
replaced, built by the same three assignments. -/
def scaling (x y z : ℚ) : Matrix :=
  ((identity.set 0 0 x).set 1 1 y).set 2 2 z

instance : Mul Matrix :=
  ⟨fun A B =>
    ⟨A.size, fun r c =>
      if r < 4 ∧ c < 4 then
        A.m r 0 * B.m 0 c + A.m r 1 * B.m 1 c + A.m r 2 * B.m 2 c + A.m r 3 * B.m 3 c
      else 0⟩⟩

instance : HMul Matrix RayTuple RayTuple :=
  ⟨fun A v =>
    ⟨A.m 0 0 * v.x + A.m 0 1 * v.y + A.m 0 2 * v.z + A.m 0 3 * v.w,
     A.m 1 0 * v.x + A.m 1 1 * v.y + A.m 1 2 * v.z + A.m 1 3 * v.w,
     A.m 2 0 * v.x + A.m 2 1 * v.y + A.m 2 2 * v.z + A.m 2 3 * v.w,
     A.m 3 0 * v.x + A.m 3 1 * v.y + A.m 3 2 * v.z + A.m 3 3 * v.w⟩⟩

/-- One entry comparison of the matrix `PartialEq`: strict 1e-5 tolerance. -/
def entEqB (A B : Matrix) (i j : ℕ) : Bool := |A.m i j - B.m i j| < EPS

/-- The `PartialEq` implementation of `matrix.rs` (lines 224-245): all
sixteen entries compared with the strict 1e-5 tolerance, size tag ignored. -/
def matrixEqB (A B : Matrix) : Bool :=
  entEqB A B 0 0 && entEqB A B 0 1 && entEqB A B 0 2 && entEqB A B 0 3 &&
  entEqB A B 1 0 && entEqB A B 1 1 && entEqB A B 1 2 && entEqB A B 1 3 &&
  entEqB A B 2 0 && entEqB A B 2 1 && entEqB A B 2 2 && entEqB A B 2 3 &&
  entEqB A B 3 0 && entEqB A B 3 1 && entEqB A B 3 2 && entEqB A B 3 3

end Matrix

/-- Ray (`ray.rs`): origin point and direction vector. -/
structure Ray where
  origin : RayTuple
  direction : RayTuple
deriving DecidableEq

namespace Ray

/-- Constructor `Ray::new`. -/
def new (origin direction : RayTuple) : Ray := ⟨origin, direction⟩

/-- Point along the ray (`Ray::position`): origin + direction * t. -/
def position (r : Ray) (t : ℚ) : RayTuple := r.origin + r.direction * t

/-- Ray transformation (`Ray::transform`): the matrix is applied to origin
and direction separately. -/
def transform (r : Ray) (m : Matrix) : Ray := ⟨m * r.origin, m * r.direction⟩

end Ray

/-- Pattern kind tag (`pattern.rs`). -/
inductive PatternType where
  | Stripe
  | Gradient
  | Test
  | Ring
  | Checker
deriving DecidableEq

/-- Procedural pattern (`pattern.rs`): kind tag, two colors, transform. -/
structure Pattern where
  pattern_type : PatternType
  a : Color
  b : Color
  transform : Matrix

namespace Pattern

/-- Constructor `Pattern::stripe_pattern`. -/
def stripe_pattern (a b : Color) : Pattern := ⟨.Stripe, a, b, Matrix.identity⟩

/-- Constructor `Pattern::test_pattern`. -/
def test_pattern : Pattern := ⟨.Test, Color.new 0 0 0, Color.new 1 1 1, Matrix.identity⟩

/-- Constructor `Pattern::gradient_pattern`. -/
def gradient_pattern (a b : Color) : Pattern := ⟨.Gradient, a, b, Matrix.identity⟩

/-- Constructor `Pattern::ring_pattern`. -/
def ring_pattern (a b : Color) : Pattern := ⟨.Ring, a, b, Matrix.identity⟩

/-- Constructor `Pattern::checkers_pattern`. -/
def checkers_pattern (a b : Color) : Pattern := ⟨.Checker, a, b, Matrix.identity⟩

/-- Local-space pattern sampling (`Pattern::pattern_at`).  The source tests
`floor(..) % 2.0 == 0.0` on f64; on the integral floor values this is the
evenness test, which the embedding states with integer `% 2`. -/
def pattern_at (ops : FloatOps) (p : Pattern) (point : RayTuple) : Color :=
  match p.pattern_type with
  | .Stripe => if Rat.floor point.x % 2 = 0 then p.a else p.b
  | .Gradient =>
      let distance := p.b - p.a
      let fraction := point.x - (Rat.floor point.x : ℚ)
      p.a + distance * fraction
  | .Test => Color.new point.x point.y point.z
  | .Ring =>
      if Rat.floor (ops.sqrtf (point.x ^ 2 + point.z ^ 2)) % 2 = 0 then p.a else p.b
  | .Checker =>
      if (Rat.floor point.x + Rat.floor point.y + Rat.floor point.z) % 2 = 0
      then p.a else p.b

end Pattern

/-- Material (`material.rs`): surface color and lighting coefficients. -/
structure Material where
  color : Color
  ambient : ℚ
  diffuse : ℚ
  specular : ℚ
  shininess : ℚ
  pattern : Option Pattern
  reflective : ℚ
  transparency : ℚ
  refractive_index : ℚ

namespace Material

/-- Constructor `Material::new`: the default material. -/
def new : Material :=
  { color := Color.new 1 1 1
    ambient := 1 / 10
    diffuse := 9 / 10
    specular := 9 / 10
    shininess := 200
    pattern := none
    reflective := 0
    transparency := 0
    refractive_index := 1 }

/-- The `PartialEq` implementation of `material.rs` (lines 94-102): only
color (with the modelled epsilon), ambient, diffuse, specular and shininess
are compared; pattern, reflective, transparency and refractive_index are
ignored. -/
def materialEqB (a b : Material) : Bool :=
  Color.colorEqB a.color b.color &&
  (a.ambient = b.ambient : Bool) && (a.diffuse = b.diffuse : Bool) &&
  (a.specular = b.specular : Bool) && (a.shininess = b.shininess : Bool)

end Material

/-- Shape kind tag (`shape.rs`). -/
inductive ShapeType where
  | Sphere
  | Plane
  | Test
  | Cube
  | Cylinder
deriving DecidableEq

/-- Shape (`shape.rs`): process-unique id (the source uses `Uuid::new_v4`;
the embedding lets the scene builder choose a natural number, used only for
equality), kind tag, transform, material, the `saved_ray` diagnostic, and
the cylinder bounds (f64 with infinite defaults, hence `FVal`). -/
structure Shape where
  id : ℕ
  shape_type : ShapeType
  transform : Matrix
  material : Material
  saved_ray : Ray
  minimum : FVal
  maximum : FVal

namespace Shape

/-- Constructor `Shape::new`: identity transform, default material, zero
saved ray, unbounded cylinder extent. -/
def new (id : ℕ) (shape_type : ShapeType) : Shape :=
  { id
    shape_type
    transform := Matrix.identity
    material := Material.new
    saved_ray := Ray.new (RayTuple.point 0 0 0) (RayTuple.vector 0 0 0)
    minimum := FVal.ninf
    maximum := FVal.inf }

/-- Constructor `Shape::test_shape`. -/
def test_shape (id : ℕ) : Shape := new id .Test

/-- Constructor `Shape::sphere`. -/
def sphere (id : ℕ) : Shape := new id .Sphere

/-- Constructor `Shape::glass_sphere`: a sphere with transparency 1 and
refractive index 1.5. -/
def glass_sphere (id : ℕ) : Shape :=
  let s := sphere id
  { s with material := { s.material with transparency := 1, refractive_index := 3 / 2 } }

/-- Constructor `Shape::plane`. -/
def plane (id : ℕ) : Shape := new id .Plane

/-- Constructor `Shape::cube`. -/
def cube (id : ℕ) : Shape := new id .Cube

/-- Constructor `Shape::cylinder`. -/
def cylinder (id : ℕ) : Shape := new id .Cylinder

/-- The `PartialEq` implementation of `shape.rs` (lines 326-333): id, kind,
transform (epsilon comparison) and material (partial comparison); the saved
ray and the cylinder bounds are ignored. -/
def shapeEqB (a b : Shape) : Bool :=
  (a.id = b.id : Bool) && (a.shape_type = b.shape_type : Bool) &&
  Matrix.matrixEqB a.transform b.transform &&
  Material.materialEqB a.material b.material

end Shape

/-- Per-axis slab test of the cube (`Shape::check_axis`): divide the plane
offsets by the direction component when it is at least epsilon in absolute
value, otherwise multiply them by `f64::INFINITY` (NaN when the numerator
is zero); swap so the smaller comes first, where the comparison follows
IEEE and never swaps when a value is NaN. -/
def check_axis (origin direction : ℚ) : FVal × FVal :=
  let tmin_numerator := -1 - origin
  let tmax_numerator := 1 - origin
  let (tmin, tmax) :=
    if |direction| ≥ EPS then
      (FVal.num (tmin_numerator / direction), FVal.num (tmax_numerator / direction))
    else
      (FVal.mulInf tmin_numerator, FVal.mulInf tmax_numerator)
  if FVal.fgt tmin tmax then (tmax, tmin) else (tmin, tmax)

/-- The `ShapeType::Cube` arm of `Shape.intersect` on the local ray, kept in
extended values: three per-axis slab tests, the overall tmin/tmax selected
by the source's nested comparison chains, no hits when tmin > tmax and
otherwise the two boundary values (which IEEE semantics can make NaN). -/
def cubeLocal (origin direction : RayTuple) : List FVal :=
  let xaxis := check_axis origin.x direction.x
  let yaxis := check_axis origin.y direction.y
  let zaxis := check_axis origin.z direction.z
  let tmin :=
    if FVal.fgt xaxis.1 yaxis.1 then
      (if FVal.fgt xaxis.1 zaxis.1 then xaxis.1 else zaxis.1)
    else
      (if FVal.fgt yaxis.1 zaxis.1 then yaxis.1 else zaxis.1)
  let tmax :=
    if FVal.flt xaxis.2 yaxis.2 then
      (if FVal.flt xaxis.2 zaxis.2 then xaxis.2 else zaxis.2)
    else
      (if FVal.flt yaxis.2 zaxis.2 then yaxis.2 else zaxis.2)
  if FVal.fgt tmin tmax then [] else [tmin, tmax]

/-- Intersection record (`intersection.rs`): parametric distance t and a
by-value copy of the shape (the Rust struct derives `Clone, Copy` and holds
`object: Shape` by value). -/
structure Intersection where
  t : ℚ
  object : Shape

namespace Intersection

/-- Constructor `Intersection::new`. -/
def new (t : ℚ) (object : Shape) : Intersection := ⟨t, object⟩

/-- The `PartialEq` implementation of `intersection.rs` (lines 93-97):
exact t equality and the shape `PartialEq`. -/
def intersectionEqB (a b : Intersection) : Bool :=
  (a.t = b.t : Bool) && Shape.shapeEqB a.object b.object

end Intersection

/-- Shape intersection (`Shape::intersect`).  The `&mut self` receiver only
writes the `saved_ray` diagnostic, so the embedding returns the updated
shape next to the intersection list.  A non-invertible transform returns
the empty list before anything else happens.  The cube arm feeds the
extended slab values through `FVal.toQ` because the global t model is
rational; `cubeLocal` keeps the exact extended values. -/
def Shape.intersect (ops : FloatOps) (s : Shape) (r : Ray) : Shape × List Intersection :=
  match s.transform.inverse with
  | none => (s, [])
  | some inv =>
    let s := { s with saved_ray := r.transform inv }
    match s.shape_type with
    | .Sphere =>
        let sphere_to_ray := s.saved_ray.origin - RayTuple.point 0 0 0
        let a := s.saved_ray.direction.dot s.saved_ray.direction
        let b := 2 * s.saved_ray.direction.dot sphere_to_ray
        let c := sphere_to_ray.dot sphere_to_ray - 1
        let discriminant := b ^ 2 - 4 * a * c
        if discriminant < 0 then (s, [])
        else
          let t1 := (-b - ops.sqrtf discriminant) / (2 * a)
          let t2 := (-b + ops.sqrtf discriminant) / (2 * a)
          (s, [Intersection.new t1 s, Intersection.new t2 s])
    | .Plane =>
        if |s.saved_ray.direction.y| < EPS then (s, [])
        else (s, [Intersection.new (-s.saved_ray.origin.y / s.saved_ray.direction.y) s])
    | .Test => (s, [])
    | .Cube =>
        match cubeLocal s.saved_ray.origin s.saved_ray.direction with
        | [] => (s, [])
        | ts => (s, ts.map (fun t => Intersection.new t.toQ s))
    | .Cylinder =>
        let a := s.saved_ray.direction.x ^ 2 + s.saved_ray.direction.z ^ 2
        if a ≤ EPS then (s, [])
        else
          let b := 2 * s.saved_ray.origin.x * s.saved_ray.direction.x +
                   2 * s.saved_ray.origin.z * s.saved_ray.direction.z
          let c := s.saved_ray.origin.x ^ 2 + s.saved_ray.origin.z ^ 2 - 1
          let disc := b ^ 2 - 4 * a * c
          if disc < 0 then (s, [])
          else
            let t0 := (-b - ops.sqrtf disc) / (2 * a)
            let t1 := (-b + ops.sqrtf disc) / (2 * a)
            let (t0, t1) := if t0 > t1 then (t1, t0) else (t0, t1)
            let y0 := s.saved_ray.origin.y + t0 * s.saved_ray.direction.y
            let first :=
              if FVal.flt s.minimum (FVal.num y0) && FVal.flt (FVal.num y0) s.maximum
              then [Intersection.new t0 s] else []
            let y1 := s.saved_ray.origin.y + t1 * s.saved_ray.direction.y
            let second :=
              if FVal.flt s.minimum (FVal.num y1) && FVal.flt (FVal.num y1) s.maximum
              then [Intersection.new t1 s] else []
            (s, first ++ second)

/-- Per-kind local normal as the spec words it (spec section 4.1): sphere
is point minus local origin, plane is constant +y, cube is the signed
component of greatest absolute coordinate, cylinder is (x, 0, z), test is
the local point read as a vector. -/
def localNormal (st : ShapeType) (object_point : RayTuple) : RayTuple :=
  match st with
  | .Sphere => object_point - RayTuple.point 0 0 0
  | .Plane => RayTuple.vector 0 1 0
  | .Test => RayTuple.vector object_point.x object_point.y object_point.z
  | .Cube =>
      let x_abs := |object_point.x|
      let y_abs := |object_point.y|
      let z_abs := |object_point.z|
      if x_abs ≥ y_abs then
        (if x_abs ≥ z_abs then RayTuple.vector object_point.x 0 0
         else RayTuple.vector 0 0 object_point.z)
      else
        (if y_abs ≥ z_abs then RayTuple.vector 0 object_point.y 0
         else RayTuple.vector 0 0 object_point.z)
  | .Cylinder => RayTuple.vector object_point.x 0 object_point.z

/-- Shape normal (`Shape::normal_at`).  The source unwraps the transform
inverse (a panic on a degenerate transform), modeled as `Option`.  Only the
Sphere and Test arms map the local normal to world space with the transpose
of the inverse, zero the w component and renormalize; the Plane, Cube and
Cylinder arms return the local normal directly. -/
def Shape.normal_at (ops : FloatOps) (s : Shape) (world_point : RayTuple) : Option RayTuple := do
  let inv ← s.transform.inverse
  let object_point := inv * world_point
  match s.shape_type with
  | .Sphere =>
      let object_normal := object_point - RayTuple.point 0 0 0
      let inv2 ← s.transform.inverse
      let world_normal := inv2.transpose * object_normal
      let world_normal := { world_normal with w := 0 }
      pure (world_normal.normalize ops)
  | .Plane => pure (RayTuple.vector 0 1 0)
  | .Test =>
      let local_normal := RayTuple.vector object_point.x object_point.y object_point.z
      let inv2 ← s.transform.inverse
      let world_normal := inv2.transpose * local_normal
      let world_normal := { world_normal with w := 0 }
      pure (world_normal.normalize ops)
  | .Cube => pure (localNormal .Cube object_point)
  | .Cylinder => pure (RayTuple.vector object_point.x 0 object_point.z)

/-- Normal computation as the spec words it (section 4.1, the sentence the
claims quote): local normal per kind at the inverse-transformed point,
mapped to world space by the transpose of the inverse transform, w zeroed,
renormalized — for every kind. -/
def specNormalAt (ops : FloatOps) (s : Shape) (world_point : RayTuple) : Option RayTuple := do
  let inv ← s.transform.inverse
  let object_point := inv * world_point
  let local_normal := localNormal s.shape_type object_point
  let world_normal := inv.transpose * local_normal
  let world_normal := { world_normal with w := 0 }
  pure (world_normal.normalize ops)

/-- Loop body of `Intersection::hit` (lines 17-34 of `intersection.rs`):
a linear scan keeping the lowest non-negative t seen so far; the strict
`intersection.t > i.t` test means an earlier record wins equal-t ties.
The `lowest_positive_i == None` check never inspects a payload, so it is
embedded as a match on the accumulator. -/
def hitLoop : List Intersection → Option Intersection → Option Intersection
  | [], acc => acc
  | i :: rest, acc =>
    let acc1 : Option Intersection :=
      match acc with
      | none => if 0 ≤ i.t then some i else none
      | some c => some c
    let acc2 : Option Intersection :=
      match acc1 with
      | none => none
      | some cur => if 0 ≤ i.t ∧ i.t < cur.t then some i else some cur
    hitLoop rest acc2

/-- Hit selection (`Intersection::hit`): scan with an empty accumulator. -/
def Intersection.hit (intersections : List Intersection) : Option Intersection :=
  hitLoop intersections none

/-- Prepared computation record (`computations.rs`): the eleven fields of
the `Computations` struct, in declaration order. -/
structure Computations where
  t : ℚ
  object : Shape
  point : RayTuple
  over_point : RayTuple
  eyev : RayTuple
  normalv : RayTuple
  inside : Bool
  reflectv : RayTuple
  n1 : ℚ
  n2 : ℚ
  under_point : RayTuple

/-- Refractive index of the last shape in the containers list, 1.0 when the
list is empty (`containers.last().unwrap().material.refractive_index`). -/
def lastRefr (containers : List Shape) : ℚ :=
  match containers.getLast? with
  | none => 1
  | some s => s.material.refractive_index

/-- Containment toggle of the refraction walk: if a shape equal (by the
shape `PartialEq`) to the given one is present, remove its first occurrence,
otherwise append the shape. -/
def toggle (containers : List Shape) (o : Shape) : List Shape :=
  match containers.findIdx? (fun s => Shape.shapeEqB s o) with
  | some shape_index => containers.eraseIdx shape_index
  | none => containers ++ [o]

/-- The n1/n2 walk of `prepare_computations` (lines 48-76 of
`intersection.rs`): iterate the supplied intersection list; at the target
hit read n1 from the containers before the toggle, toggle the current
shape, and at the target hit read n2 from the containers after the toggle
and stop.  Both accumulators start at 1. -/
def n1n2Loop (self : Intersection) : List Intersection → List Shape → ℚ × ℚ → ℚ × ℚ
  | [], _, acc => acc
  | i :: rest, containers, acc =>
    let n1 := if Intersection.intersectionEqB self i then lastRefr containers else acc.1
    let containers2 := toggle containers i.object
    if Intersection.intersectionEqB self i then (n1, lastRefr containers2)
    else n1n2Loop self rest containers2 (n1, acc.2)

/-- Per-hit state computation (`Intersection::prepare_computations`).
Faithful to `intersection.rs` lines 36-90 with one exception that is the
subject of claim C3: the source builds the `Computations` record by passing
ten values to `Computations::new`, which requires eleven (it never computes
the `under_point` field declared in `computations.rs` and read by
`refracted_color`).  The missing field is modelled from the spec:
`under_point` is the hit point nudged against the (possibly flipped) normal
by the same 1e-5 bias as `over_point`. -/
def Intersection.prepare_computations (ops : FloatOps) (self : Intersection)
    (r : Ray) (xs : List Intersection) : Option Computations := do
  let p := r.position self.t
  let eyev := -r.direction
  let nv ← self.object.normal_at ops p
  let (inside, normalv) :=
    if nv.dot eyev < 0 then (true, -nv) else (false, nv)
  let over_point := p + normalv * (1 / 100000 : ℚ)
  let reflectv := r.direction.reflect normalv
  let (n1, n2) := n1n2Loop self xs [] (1, 1)
  pure
    { t := self.t
      object := self.object
      point := p
      over_point := over_point
      eyev := eyev
      normalv := normalv
      inside := inside
      reflectv := reflectv
      n1 := n1
      n2 := n2
      under_point := p - normalv * (1 / 100000 : ℚ) }

/-- Modelled from the spec: `Intersection::schlick` is called by
`World::shade_hit` but its body is not part of the excerpt; spec sections
4.3 and 9 prescribe the standard Schlick approximation, using the cosine on
the denser side when n1 > n2 with the total-internal-reflection short
circuit returning reflectance 1. -/
def Intersection.schlick (ops : FloatOps) (comps : Computations) : ℚ :=
  let cos := comps.eyev.dot comps.normalv
  if comps.n1 > comps.n2 then
    let n := comps.n1 / comps.n2
    let sin2_t := n ^ 2 * (1 - cos ^ 2)
    if sin2_t > 1 then 1
    else
      let cos_t := ops.sqrtf (1 - sin2_t)
      let r0 := ((comps.n1 - comps.n2) / (comps.n1 + comps.n2)) ^ 2
      r0 + (1 - r0) * (1 - cos_t) ^ 5
  else
    let r0 := ((comps.n1 - comps.n2) / (comps.n1 + comps.n2)) ^ 2
    r0 + (1 - r0) * (1 - cos) ^ 5

/-- Pattern sampling on a shape (`Pattern::pattern_at_shape`): world point
to object space, then to pattern space, both through unwrapped inverses
(modeled as `Option`). -/
def Pattern.pattern_at_shape (ops : FloatOps) (p : Pattern) (object : Shape)
    (world_point : RayTuple) : Option Color := do
  let inv1 ← object.transform.inverse
  let object_point := inv1 * world_point
  let inv2 ← p.transform.inverse
  let pattern_point := inv2 * object_point
  pure (p.pattern_at ops pattern_point)

/-- Point light (`light.rs`): position and intensity. -/
structure Light where
  position : RayTuple
  intensity : Color

/-- Constructor `Light::point_light`. -/
def Light.point_light (position : RayTuple) (intensity : Color) : Light :=
  ⟨position, intensity⟩

/-- Phong lighting (`Material::lighting`): pattern or base color modulated
by the light, ambient always, diffuse/specular dropped when the light is
behind the surface or the point is shadowed, specular dropped when the
reflection points away from the eye. -/
def Material.lighting (ops : FloatOps) (self : Material) (shape : Shape) (light : Light)
    (point eyev normalv : RayTuple) (in_shadow : Bool) : Option Color := do
  let pattern_color ←
    match self.pattern with
    | some p => p.pattern_at_shape ops shape point
    | none => pure self.color
  let effective_color := pattern_color * light.intensity
  let lightv := (light.position - point).normalize ops
  let ambient := effective_color * self.ambient
  let light_dot_normal := lightv.dot normalv
  if light_dot_normal < 0 ∨ in_shadow then
    pure ambient
  else
    let diffuse := effective_color * self.diffuse * light_dot_normal
    let reflectv := (-lightv).reflect normalv
    let reflect_dot_eye := reflectv.dot eyev
    if reflect_dot_eye ≤ 0 then
      pure (ambient + diffuse)
    else
      let factor := ops.powf reflect_dot_eye self.shininess
      let specular := light.intensity * self.specular * factor
      pure (ambient + diffuse + specular)

/-- Scene aggregate (`world.rs`): one light and the ordered shape list. -/
structure World where
  light : Light
  objects : List Shape

namespace World

/-- Stable ascending insertion by t, the model of the source's
`sort_by` comparator (`Less` iff `a.t < b.t`, `Equal` iff `a.t == b.t`):
Rust's `sort_by` is a stable sort, and stable sorting under that comparator
is insertion keeping existing order among equal t. -/
def insertByT (i : Intersection) : List Intersection → List Intersection
  | [] => [i]
  | j :: rest => if j.t ≤ i.t then j :: insertByT i rest else i :: j :: rest

/-- Stable sort by ascending t (see `insertByT`). -/
def sortByT : List Intersection → List Intersection
  | [] => []
  | i :: rest => insertByT i (sortByT rest)

/-- World intersection (`World::intersect_world`): concatenate every
shape's intersections, then stably sort ascending by t.  The `&mut self`
receiver only updates each shape's `saved_ray` diagnostic, which nothing
downstream reads and which the shape `PartialEq` ignores; the embedding
drops that update and keeps the function pure. -/
def intersect_world (ops : FloatOps) (w : World) (r : Ray) : List Intersection :=
  sortByT (w.objects.foldl (fun acc o => acc ++ (o.intersect ops r).2) [])

/-- Shadow test (`World::is_shadowed`): cast toward the light and compare
the hit distance with the light distance. -/
def is_shadowed (ops : FloatOps) (w : World) (p : RayTuple) : Bool :=
  let v := w.light.position - p
  let distance := RayTuple.magnitude ops v
  let direction := RayTuple.normalize ops v
  let r := Ray.new p direction
  match Intersection.hit (intersect_world ops w r) with
  | some hit => hit.t < distance
  | none => false

end World

/-- Black, `Color::new(0.0, 0.0, 0.0)`. -/
def black : Color := Color.new 0 0 0

/-!
The recursive shading family of `world.rs` (`shade_hit`, `color_at`,
`reflected_color`, `refracted_color`).  The `remaining` depth budget is an
`i32` in the source; every call site in the program supplies a non-negative
budget (the render loop and every test pass 5), so the embedding uses `ℕ`,
on which the source's guards read: `remaining < 1` iff `remaining = 0`, and
`remaining == 0` likewise.  The recursion is total because every recursive
call passes `remaining - 1` under a guard putting `remaining ≥ 1`; the
termination measure `4 * remaining + k` below is exactly that argument.
-/

mutual

/-- Shading of a prepared hit (`World::shade_hit`): shadowed lighting plus
the reflected and refracted contributions, Schlick-blended when the
material is both reflective and transparent. -/
def World.shade_hit (ops : FloatOps) (w : World) (comps : Computations)
    (remaining : ℕ) : Option Color := do
  let shadowed := w.is_shadowed ops comps.over_point
  let surface ← comps.object.material.lighting ops comps.object w.light
      comps.over_point comps.eyev comps.normalv shadowed
  let reflected ← World.reflected_color ops w comps remaining
  let refracted ← World.refracted_color ops w comps remaining
  let material := comps.object.material
  if material.reflective > 0 ∧ material.transparency > 0 then
    let reflectance := Intersection.schlick ops comps
    pure (surface + reflected * reflectance + refracted * (1 - reflectance))
  else
    pure (surface + reflected + refracted)
termination_by 4 * remaining + 1
decreasing_by all_goals (simp_wf <;> omega)

/-- Color of a ray (`World::color_at`): intersect the world, no hit gives
black, otherwise prepare computations and shade.  The source passes the
freshly allocated empty `dummyxs` vector — not the intersection list — to
`prepare_computations` (`world.rs` lines 95-96, the subject of claim C1). -/
def World.color_at (ops : FloatOps) (w : World) (r : Ray) (remaining : ℕ) :
    Option Color :=
  match Intersection.hit (World.intersect_world ops w r) with
  | some hit => do
      let dummyxs : List Intersection := []
      let comps ← hit.prepare_computations ops r dummyxs
      World.shade_hit ops w comps remaining
  | none => pure black
termination_by 4 * remaining + 2
decreasing_by all_goals (simp_wf <;> omega)

/-- Reflected contribution (`World::reflected_color`): black when the
budget is exhausted (`remaining < 1`) or the material is not reflective,
otherwise the color of the reflection ray cast from `over_point` with
budget `remaining - 1`, scaled by the reflectivity. -/
def World.reflected_color (ops : FloatOps) (w : World) (comps : Computations)
    (remaining : ℕ) : Option Color :=
  if h : remaining < 1 ∨ comps.object.material.reflective = 0 then
    pure black
  else do
    let reflect_ray := Ray.new comps.over_point comps.reflectv
    let color ← World.color_at ops w reflect_ray (remaining - 1)
    pure (color * comps.object.material.reflective)
termination_by 4 * remaining
decreasing_by all_goals (simp_wf <;> (push_neg at h; omega))

/-- Refracted contribution (`World::refracted_color`): Snell ratio and
sine first, then black when the budget is zero, the material is opaque, or
total internal reflection occurs; otherwise the color of the refraction
ray cast from `under_point` with budget `remaining - 1`, scaled by the
transparency. -/
def World.refracted_color (ops : FloatOps) (w : World) (comps : Computations)
    (remaining : ℕ) : Option Color :=
  let n_ratio := comps.n1 / comps.n2
  let cos_i := comps.eyev.dot comps.normalv
  let sin2_t := n_ratio ^ 2 * (1 - cos_i ^ 2)
  if h : remaining = 0 ∨ comps.object.material.transparency = 0 ∨ sin2_t > 1 then
    pure black
  else do
    let cos_t := ops.sqrtf (1 - sin2_t)
    let direction := comps.normalv * (n_ratio * cos_i - cos_t) - comps.eyev * n_ratio
    let refract_ray := Ray.new comps.under_point direction
    let color ← World.color_at ops w refract_ray (remaining - 1)
    pure (color * comps.object.material.transparency)
termination_by 4 * remaining
decreasing_by all_goals (simp_wf <;> (push_neg at h; omega))

end

/-!
Spec-side comparison definitions.  Every definition from here down either
renders a sentence of the spec for comparison with the source embedding
above (refinement claims), or is a concrete scene used by witnesses and
counterexamples.
-/

/-- The computation `color_at` hands to `shade_hit` (the interesting state
of `world.rs` lines 91-101, shared by the C1 theorems): the hit of the
world intersections, prepared against the empty `dummyxs` list. -/
def colorAtHitComps (ops : FloatOps) (w : World) (r : Ray) : Option Computations :=
  match Intersection.hit (World.intersect_world ops w r) with
  | none => none
  | some hit => hit.prepare_computations ops r []

/-- The computation the spec says `color_at` should build: the same hit
prepared against the full sorted intersection list returned by
`intersect_world`, so that n1 and n2 reflect the surrounding media. -/
def specColorAtHitComps (ops : FloatOps) (w : World) (r : Ray) : Option Computations :=
  let xs := World.intersect_world ops w r
  match Intersection.hit xs with
  | none => none
  | some hit => hit.prepare_computations ops r xs

/-- Fold of the containment toggles over a list of intersections, the
functional reading of the spec's containers walk (spec section 4.2). -/
def toggleFold (containers : List Shape) (l : List Intersection) : List Shape :=
  l.foldl (fun cs i => toggle cs i.object) containers

/-- Sign-preserving infinity multiplication as the claim words it ("so the
sign is preserved"), with the zero numerator resolved to +infinity; the
claim-side slab computation built on this has no NaN. -/
def mulInfSpec (q : ℚ) : FVal :=
  if q < 0 then FVal.ninf else FVal.inf

/-- Per-axis slab pair as the claim words it: division when the direction
has magnitude at least epsilon, sign-preserved infinities otherwise, the
smaller value first. -/
def check_axisSpec (origin direction : ℚ) : FVal × FVal :=
  let tmin_numerator := -1 - origin
  let tmax_numerator := 1 - origin
  let (tmin, tmax) :=
    if |direction| ≥ EPS then
      (FVal.num (tmin_numerator / direction), FVal.num (tmax_numerator / direction))
    else
      (mulInfSpec tmin_numerator, mulInfSpec tmax_numerator)
  if FVal.fgt tmin tmax then (tmax, tmin) else (tmin, tmax)

/-- Larger of two extended values under the IEEE order (adequate away from
NaN, where the order is total). -/
def fmax (a b : FVal) : FVal := if FVal.flt a b then b else a

/-- Smaller of two extended values under the IEEE order (adequate away from
NaN, where the order is total). -/
def fmin (a b : FVal) : FVal := if FVal.flt b a then b else a

/-- Cube slab result as the claim words it: overall tmin the maximum of
the three per-axis tmins, overall tmax the minimum of the three per-axis
tmaxes, no hits when tmin exceeds tmax and otherwise exactly the two
boundary values. -/
def cubeSlabSpec (origin direction : RayTuple) : List FVal :=
  let xaxis := check_axisSpec origin.x direction.x
  let yaxis := check_axisSpec origin.y direction.y
  let zaxis := check_axisSpec origin.z direction.z
  let tmin := fmax (fmax xaxis.1 yaxis.1) zaxis.1
  let tmax := fmin (fmin xaxis.2 yaxis.2) zaxis.2
  if FVal.fgt tmin tmax then [] else [tmin, tmax]

/-- Concrete interpretation of the f64 operations used by the witnesses:
a square-root table exact on every radicand the concrete scenes reach. -/
def opsC : FloatOps :=
  { sqrtf := fun q =>
      if q = 1 then 1 else if q = 1 / 4 then 1 / 2 else if q = 4 then 2 else 0
    powf := fun _ _ => 0 }

/-- Default white point light of `World::new`. -/
def lightC : Light :=
  Light.point_light (RayTuple.point (-10) 10 (-10)) (Color.new 1 1 1)

/-- Concrete scene for C1: a single untransformed glass sphere. -/
def wGlass : World := ⟨lightC, [Shape.glass_sphere 0]⟩

/-- Concrete ray through the scene center from z = -5. -/
def rAxis : Ray := Ray.new (RayTuple.point 0 0 (-5)) (RayTuple.vector 0 0 1)

/-- Outer glass sphere of the nested-spheres test (`intersection.rs` test
`finding_n_at_various_intersections`): scaled by 2, index 1.5. -/
def aGlass : Shape :=
  let s := Shape.glass_sphere 10
  { s with transform := Matrix.scaling 2 2 2
           material := { s.material with refractive_index := 3 / 2 } }

/-- Middle glass sphere: translated to z = -0.25, index 2.0. -/
def bGlass : Shape :=
  let s := Shape.glass_sphere 11
  { s with transform := Matrix.translation 0 0 (-1 / 4)
           material := { s.material with refractive_index := 2 } }

/-- Inner glass sphere: translated to z = 0.25, index 2.5. -/
def cGlass : Shape :=
  let s := Shape.glass_sphere 12
  { s with transform := Matrix.translation 0 0 (1 / 4)
           material := { s.material with refractive_index := 5 / 2 } }

/-- Ray through all three nested spheres from z = -4. -/
def rNested : Ray := Ray.new (RayTuple.point 0 0 (-4)) (RayTuple.vector 0 0 1)

/-- The six ordered intersections of `rNested` with the nested spheres, as
in the source test. -/
def xsNested : List Intersection :=
  [Intersection.new 2 aGlass, Intersection.new (11 / 4) bGlass,
   Intersection.new (13 / 4) cGlass, Intersection.new (19 / 4) bGlass,
   Intersection.new (21 / 4) cGlass, Intersection.new 6 aGlass]

/-- The (n1, n2) pair `prepare_computations` produces for the hit at the
given index of `xsNested`. -/
def nestedPair (k : ℕ) : Option (ℚ × ℚ) :=
  match xsNested.get? k with
  | none => none
  | some hit =>
    (hit.prepare_computations opsC rNested xsNested).map (fun c => (c.n1, c.n2))

/-- Concrete intersection list for the C5 witness: mixed positive and
negative t values with a tie at the minimum non-negative t. -/
def xsHit : List Intersection :=
  [Intersection.new 7 (Shape.sphere 0), Intersection.new (-3) (Shape.sphere 0),
   Intersection.new 2 (Shape.sphere 0), Intersection.new 2 (Shape.sphere 1)]

/-- Concrete prepared computation for the C7 witness: a half-reflective,
half-transparent glass surface seen head on. -/
def compsW : Computations :=
  { t := 4
    object := { Shape.sphere 30 with material :=
        { Material.new with reflective := 1 / 2, transparency := 1 / 2 } }
    point := RayTuple.point 0 0 0
    over_point := RayTuple.point 0 0 0
    eyev := RayTuple.vector 0 0 (-1)
    normalv := RayTuple.vector 0 0 (-1)
    inside := false
    reflectv := RayTuple.vector 0 0 (-1)
    n1 := 1
    n2 := 3 / 2
    under_point := RayTuple.point 0 0 0 }

/-- Concrete shape for C4: a plane rotated a quarter turn about z (the
rotation matrix has exact rational entries, written directly). -/
def planeRot : Shape :=
  { Shape.plane 20 with
      transform :=
        (((Matrix.identity.set 0 0 0).set 0 1 (-1)).set 1 0 1).set 1 1 0 }

/-!
Theorems.  Unfolding lemmas for the arithmetic instances come first (simp
cannot see through instance projections on its own); then each claim of
CLAIMS.json gets exactly one theorem, plus, where required, a
counterexample and a witness.
-/

@[simp] theorem rt_add (a b : RayTuple) :
    a + b = ⟨a.x + b.x, a.y + b.y, a.z + b.z, a.w + b.w⟩ := rfl

@[simp] theorem rt_sub (a b : RayTuple) :
    a - b = ⟨a.x - b.x, a.y - b.y, a.z - b.z, a.w - b.w⟩ := rfl

@[simp] theorem rt_neg (a : RayTuple) : -a = ⟨-a.x, -a.y, -a.z, -a.w⟩ := rfl

@[simp] theorem rt_smul (a : RayTuple) (s : ℚ) :
    a * s = ⟨a.x * s, a.y * s, a.z * s, a.w * s⟩ := rfl

@[simp] theorem mat_apply (A : Matrix) (v : RayTuple) :
    A * v = ⟨A.m 0 0 * v.x + A.m 0 1 * v.y + A.m 0 2 * v.z + A.m 0 3 * v.w,
             A.m 1 0 * v.x + A.m 1 1 * v.y + A.m 1 2 * v.z + A.m 1 3 * v.w,
             A.m 2 0 * v.x + A.m 2 1 * v.y + A.m 2 2 * v.z + A.m 2 3 * v.w,
             A.m 3 0 * v.x + A.m 3 1 * v.y + A.m 3 2 * v.z + A.m 3 3 * v.w⟩ := rfl

/-- Helper for C2: the n1/n2 walk on a list decomposed at the first
intersection equal to the target hit: n1 is the refractive index of the
last shape in the containers accumulated over the prefix (1 when empty),
and n2 the same after toggling the hit's shape.  Proved for an arbitrary
starting containers list by induction on the prefix. -/
theorem n1n2Loop_first (self : Intersection) :
    ∀ (l1 : List Intersection) (i : Intersection) (l2 : List Intersection)
      (cs : List Shape) (acc : ℚ × ℚ),
      (∀ j ∈ l1, Intersection.intersectionEqB self j = false) →
      Intersection.intersectionEqB self i = true →
      n1n2Loop self (l1 ++ i :: l2) cs acc =
        (lastRefr (toggleFold cs l1), lastRefr (toggle (toggleFold cs l1) i.object)) := by
  intro l1
  induction l1 with
  | nil =>
      intro i l2 cs acc hl1 hi
      simp [n1n2Loop, hi, toggleFold]
  | cons j rest ih =>
      intro i l2 cs acc hl1 hi
      have hj : Intersection.intersectionEqB self j = false := hl1 j (by simp)
      simp only [List.cons_append, n1n2Loop, hj, Bool.false_eq_true, if_false,
        List.append_eq]
      rw [ih i l2 (toggle cs j.object) (acc.1, acc.2)
            (fun k hk => hl1 k (by simp [hk])) hi]
      simp [toggleFold]

/-- C2: `prepare_computations` walks the supplied list in order toggling
containment of each intersection's shape; at the first intersection equal
to the target hit, n1 is the refractive index of the last shape in the
containers before the toggle (1.0 when empty) and n2 that of the last
shape after the toggle (1.0 when empty).  For the three nested glass
spheres with indices 1.5, 2.0, 2.5 and the ray through all of them, the
six ordered (n1, n2) pairs are (1.0,1.5), (1.5,2.0), (2.0,2.5),
(2.5,2.5), (2.5,1.5), (1.5,1.0). -/
theorem prepare_computations_refractive_walk :
    (∀ (ops : FloatOps) (self : Intersection) (r : Ray)
       (l1 : List Intersection) (i : Intersection) (l2 : List Intersection)
       (comps : Computations),
        (∀ j ∈ l1, Intersection.intersectionEqB self j = false) →
        Intersection.intersectionEqB self i = true →
        Intersection.prepare_computations ops self r (l1 ++ i :: l2) = some comps →
        comps.n1 = lastRefr (toggleFold [] l1) ∧
        comps.n2 = lastRefr (toggle (toggleFold [] l1) i.object))
    ∧ (List.range 6).map nestedPair =
      [some (1, 3 / 2), some (3 / 2, 2), some (2, 5 / 2),
       some (5 / 2, 5 / 2), some (5 / 2, 3 / 2), some (3 / 2, 1)] := by
  constructor
  · intro ops self r l1 i l2 comps hl1 hi hp
    simp only [Intersection.prepare_computations, Option.bind_eq_some, Option.some_bind,
      Option.pure_def, bind, Option.bind_eq_some] at hp
    obtain ⟨nv, hnv, hc⟩ := hp
    rw [Option.some_inj] at hc
    subst hc
    constructor
    · show (n1n2Loop self (l1 ++ i :: l2) [] (1, 1)).1 = _
      rw [n1n2Loop_first self l1 i l2 [] (1, 1) hl1 hi]
    · show (n1n2Loop self (l1 ++ i :: l2) [] (1, 1)).2 = _
      rw [n1n2Loop_first self l1 i l2 [] (1, 1) hl1 hi]
  · norm_num [nestedPair, xsNested, aGlass, bGlass, cGlass, rNested,
      Shape.glass_sphere, Shape.sphere, Shape.new,
      Matrix.inverse, Matrix.invertible, Matrix.determinant, Matrix.detFuel,
      Matrix.submatrix, Matrix.cofactor, Matrix.minor, Matrix.identity,
      Matrix.newMatrix4, Matrix.transpose, Matrix.translation, Matrix.scaling,
      Matrix.set, List.range_succ, opsC,
      Ray.position, Ray.new, RayTuple.point, RayTuple.vector,
      RayTuple.dot, RayTuple.magnitude, RayTuple.normalize, RayTuple.reflect,
      Intersection.new, Intersection.prepare_computations, Shape.normal_at,
      n1n2Loop, toggle, lastRefr,
      Intersection.intersectionEqB, Shape.shapeEqB, Matrix.matrixEqB, Matrix.entEqB,
      Material.materialEqB, Color.colorEqB, Material.new, EPS]

/-- Witness for C2: the walk statement applied to the first hit of the
nested-spheres list, hypotheses discharged at the concrete input. -/
theorem prepare_computations_refractive_walk_witness :
    (Intersection.prepare_computations opsC (Intersection.new 2 aGlass) rNested
        xsNested).elim True
      (fun comps =>
        comps.n1 = lastRefr (toggleFold [] []) ∧
        comps.n2 = lastRefr (toggle (toggleFold [] []) (Intersection.new 2 aGlass).object)) := by
  rcases hp : Intersection.prepare_computations opsC (Intersection.new 2 aGlass) rNested
      xsNested with _ | comps
  · trivial
  · exact prepare_computations_refractive_walk.1 opsC (Intersection.new 2 aGlass) rNested
      [] (Intersection.new 2 aGlass) xsNested.tail comps (by simp)
      (by norm_num [Intersection.intersectionEqB, Shape.shapeEqB, Matrix.matrixEqB,
        Matrix.entEqB, Material.materialEqB, Color.colorEqB, EPS])
      (by simpa [xsNested] using hp)

/-- C10: the tuple `PartialEq` compares only x, y and z, each within the
strict 1e-5 tolerance, and ignores w entirely — in particular any two
tuples sharing x, y, z are equal whatever their w components, including a
point and a vector at the same coordinates. -/
theorem raytuple_eq_ignores_w :
    (∀ a b : RayTuple, RayTuple.rtEqB a b = true ↔
      (|a.x - b.x| < EPS ∧ |a.y - b.y| < EPS ∧ |a.z - b.z| < EPS))
    ∧ (∀ x y z w1 w2 : ℚ, RayTuple.rtEqB ⟨x, y, z, w1⟩ ⟨x, y, z, w2⟩ = true)
    ∧ (∀ x y z : ℚ, RayTuple.rtEqB (RayTuple.point x y z) (RayTuple.vector x y z) = true) := by
  refine ⟨fun a b => by simp [RayTuple.rtEqB], ?_, ?_⟩ <;>
    exact fun x y z => by norm_num [RayTuple.rtEqB, RayTuple.point, RayTuple.vector, EPS]

/-- Witness for C10: two tuples differing only in w compare equal, at a
concrete input. -/
theorem raytuple_eq_ignores_w_witness :
    RayTuple.rtEqB (RayTuple.new 0 0 0 5) (RayTuple.new 0 0 0 9) = true :=
  raytuple_eq_ignores_w.2.1 0 0 0 5 9

/-- C9: an `Intersection` stores a by-value snapshot of its shape: the
record built by `Intersection::new` keeps the original shape value, and a
subsequent update of the original (transform, material, minimum, maximum)
produces a different shape value that the stored snapshot is not equal
to. -/
theorem intersection_snapshot :
    ∀ (s : Shape) (t : ℚ) (T : Matrix) (M : Material) (mn mx : FVal),
      (Intersection.new t s).object = s ∧
      (T ≠ s.transform →
        (Intersection.new t s).object ≠
          { s with transform := T, material := M, minimum := mn, maximum := mx }) := by
  intro s t T M mn mx
  exact ⟨rfl, fun hT heq => hT (congrArg Shape.transform heq).symm⟩

/-- Witness for C9: concrete sphere, concrete mutation of every field. -/
theorem intersection_snapshot_witness :
    (Intersection.new 4 (Shape.sphere 0)).object = Shape.sphere 0 ∧
    (Intersection.new 4 (Shape.sphere 0)).object ≠
      { Shape.sphere 0 with
          transform := Matrix.translation 1 2 3,
          material := Material.new, minimum := FVal.nan, maximum := FVal.nan } := by
  have hT : Matrix.translation 1 2 3 ≠ (Shape.sphere 0).transform := by
    intro h
    have h2 := congrArg (fun A => A.m 0 3) h
    norm_num [Matrix.translation, Matrix.set, Matrix.identity, Matrix.newMatrix4,
      Shape.sphere, Shape.new] at h2
  exact ⟨(intersection_snapshot (Shape.sphere 0) 4 (Matrix.translation 1 2 3)
            Material.new FVal.nan FVal.nan).1,
         (intersection_snapshot (Shape.sphere 0) 4 (Matrix.translation 1 2 3)
            Material.new FVal.nan FVal.nan).2 hT⟩

/-- C6: a shape whose transform has zero determinant intersects nothing:
`intersect` returns the empty list (and leaves the shape untouched, not
even writing the saved-ray diagnostic), with no panic or error. -/
theorem intersect_degenerate_transform :
    ∀ (ops : FloatOps) (s : Shape) (r : Ray),
      Matrix.determinant s.transform = 0 → s.intersect ops r = (s, []) := by
  intro ops s r h
  unfold Shape.intersect
  have hinv : s.transform.inverse = none := by
    unfold Matrix.inverse Matrix.invertible
    simp [h]
  rw [hinv]

/-- C1 counterexample: at the single-glass-sphere world and the axis ray,
the computation `color_at` hands to `shade_hit` carries (n1, n2) = (1, 1),
while the claim (prepare against the full sorted intersection list so that
n1 and n2 reflect the surrounding media) demands (1, 3/2): the hit enters
the glass sphere, so n2 should be its refractive index 1.5.  The claim as
stated is therefore false on the code. -/
theorem colorAt_full_list_claim_false :
    (colorAtHitComps opsC wGlass rAxis).map (fun c => (c.n1, c.n2)) = some (1, 1)
    ∧ (specColorAtHitComps opsC wGlass rAxis).map (fun c => (c.n1, c.n2)) = some (1, 3 / 2)
    ∧ ((1, 1) : ℚ × ℚ) ≠ (1, 3 / 2) := by
  refine ⟨?_, ?_,
    fun hh => absurd (congrArg Prod.snd hh) (by norm_num)⟩ <;>
    norm_num [colorAtHitComps, specColorAtHitComps, World.intersect_world,
      Shape.intersect, wGlass, rAxis,
      Shape.glass_sphere, Shape.sphere, Shape.new, lightC, Light.point_light,
      Matrix.inverse, Matrix.invertible, Matrix.determinant, Matrix.detFuel,
      Matrix.submatrix, Matrix.cofactor, Matrix.minor, Matrix.identity,
      Matrix.newMatrix4, Matrix.transpose, List.range_succ, opsC,
      Ray.transform, Ray.position, Ray.new, RayTuple.point, RayTuple.vector,
      RayTuple.dot, RayTuple.magnitude, RayTuple.normalize, RayTuple.reflect,
      World.sortByT, World.insertByT, hitLoop, Intersection.hit, Intersection.new,
      Intersection.prepare_computations, Shape.normal_at, n1n2Loop, toggle, lastRefr,
      Intersection.intersectionEqB, Shape.shapeEqB, Matrix.matrixEqB, Matrix.entEqB,
      Material.materialEqB, Color.colorEqB, Material.new, EPS]

/-- C1 amended: `color_at` intersects the world, returns black when `hit`
yields no intersection, and otherwise calls `prepare_computations` on the
hit passing an empty intersection list (the `dummyxs` vector), so the
prepared computation always carries n1 = n2 = 1 regardless of the
surrounding media, and the result is `shade_hit` of that computation. -/
theorem colorAt_empty_comps :
    ∀ (ops : FloatOps) (w : World) (r : Ray) (remaining : ℕ),
      World.color_at ops w r remaining =
        (match Intersection.hit (World.intersect_world ops w r) with
         | some hit => (hit.prepare_computations ops r []).bind
             (fun comps => World.shade_hit ops w comps remaining)
         | none => pure black)
      ∧ ∀ comps, colorAtHitComps ops w r = some comps →
          comps.n1 = 1 ∧ comps.n2 = 1 := by
  intro ops w r remaining
  constructor
  · rw [World.color_at]
    rfl
  · intro comps h
    unfold colorAtHitComps at h
    rcases hh : Intersection.hit (World.intersect_world ops w r) with _ | hit <;>
      rw [hh] at h
    · simp at h
    · simp only [Intersection.prepare_computations, Option.bind_eq_some, Option.some_bind,
        Option.pure_def, bind, Option.bind_eq_some] at h
      obtain ⟨nv, hnv, hc⟩ := h
      rw [Option.some_inj] at hc
      subst hc
      exact ⟨rfl, rfl⟩

/-- Witness for C1: the amended statement applied to the concrete
single-glass-sphere scene, with the hypothesis of the n1/n2 part discharged
by the match on the concrete prepared computation. -/
theorem colorAt_empty_comps_witness :
    World.color_at opsC wGlass rAxis 5 =
      (match Intersection.hit (World.intersect_world opsC wGlass rAxis) with
       | some hit => (hit.prepare_computations opsC rAxis []).bind
           (fun comps => World.shade_hit opsC wGlass comps 5)
       | none => pure black)
    ∧ (colorAtHitComps opsC wGlass rAxis).elim True (fun c => c.n1 = 1 ∧ c.n2 = 1) := by
  refine ⟨(colorAt_empty_comps opsC wGlass rAxis 5).1, ?_⟩
  rcases hcc : colorAtHitComps opsC wGlass rAxis with _ | c
  · trivial
  · exact (colorAt_empty_comps opsC wGlass rAxis 5).2 c hcc

/-- Witness for C6: the all-zero scaling transform has zero determinant and
the sphere carrying it intersects nothing. -/
theorem intersect_degenerate_transform_witness :
    Matrix.determinant (Matrix.scaling 0 0 0) = 0 ∧
    ({ Shape.sphere 0 with transform := Matrix.scaling 0 0 0 }).intersect opsC rAxis
      = ({ Shape.sphere 0 with transform := Matrix.scaling 0 0 0 }, []) :=
  have hdet : Matrix.determinant (Matrix.scaling 0 0 0) = 0 := by
    norm_num [Matrix.determinant, Matrix.detFuel, Matrix.scaling, Matrix.set,
      Matrix.identity, Matrix.newMatrix4, List.range_succ]
  ⟨hdet, intersect_degenerate_transform opsC _ rAxis hdet⟩

/-- Helper for C5: once the accumulator is occupied, the scan of
`Intersection::hit` is the fold keeping the strictly smaller non-negative
candidate. -/
theorem hitLoop_some (xs : List Intersection) :
    ∀ cur : Intersection,
      hitLoop xs (some cur) =
        some (xs.foldl (fun c i => if 0 ≤ i.t ∧ i.t < c.t then i else c) cur) := by
  induction xs with
  | nil => intro cur; rfl
  | cons i rest ih =>
      intro cur
      simp only [hitLoop, List.foldl_cons]
      by_cases hc : 0 ≤ i.t ∧ i.t < cur.t <;> simp only [if_pos, if_neg, hc] <;>
        exact ih _

/-- Helper for C5: the fold of `Intersection::hit` starting from a
non-negative candidate returns a non-negative record no larger than the
start or any later non-negative record, and, when it improves on the
start, that record sits in the list with everything before it negative or
strictly larger (the strict comparison keeps the first of equal minima). -/
theorem hitFold_spec :
    ∀ (rest : List Intersection) (cur : Intersection), 0 ≤ cur.t →
      ∀ res, rest.foldl (fun c i => if 0 ≤ i.t ∧ i.t < c.t then i else c) cur = res →
      0 ≤ res.t ∧ res.t ≤ cur.t ∧
      (∀ j ∈ rest, 0 ≤ j.t → res.t ≤ j.t) ∧
      (res = cur ∨
        (res.t < cur.t ∧ ∃ l1 l2, rest = l1 ++ res :: l2 ∧
          ∀ j ∈ l1, j.t < 0 ∨ res.t < j.t)) := by
  intro rest
  induction rest with
  | nil =>
      intro cur hcur res hres
      rw [List.foldl_nil] at hres
      subst hres
      exact ⟨hcur, le_refl _, by simp, Or.inl rfl⟩
  | cons x rest ih =>
      intro cur hcur res hres
      rw [List.foldl_cons] at hres
      by_cases hc : 0 ≤ x.t ∧ x.t < cur.t
      · rw [if_pos hc] at hres
        obtain ⟨h0, hle, hall, hdec⟩ := ih x hc.1 res hres
        refine ⟨h0, le_of_lt (lt_of_le_of_lt hle hc.2), ?_, ?_⟩
        · intro j hj hjt
          rcases List.mem_cons.mp hj with hj | hj
          · exact hj ▸ hle
          · exact hall j hj hjt
        · rcases hdec with heq | ⟨hlt, l1, l2, hsplit, hcond⟩
          · refine Or.inr ⟨?_, [], rest, ?_, by simp⟩
            · rw [heq]; exact hc.2
            · simp [heq]
          · refine Or.inr ⟨lt_trans hlt hc.2, x :: l1, l2, by simp [hsplit], ?_⟩
            intro j hj
            rcases List.mem_cons.mp hj with hj | hj
            · exact Or.inr (hj ▸ hlt)
            · exact hcond j hj
      · rw [if_neg hc] at hres
        obtain ⟨h0, hle, hall, hdec⟩ := ih cur hcur res hres
        have hx : 0 ≤ x.t → cur.t ≤ x.t := by
          intro h1
          by_contra h2
          exact hc ⟨h1, lt_of_not_le h2⟩
        refine ⟨h0, hle, ?_, ?_⟩
        · intro j hj hjt
          rcases List.mem_cons.mp hj with hj | hj
          · exact hj ▸ le_trans hle (hx (hj ▸ hjt))
          · exact hall j hj hjt
        · rcases hdec with heq | ⟨hlt, l1, l2, hsplit, hcond⟩
          · exact Or.inl heq
          · refine Or.inr ⟨hlt, x :: l1, l2, by simp [hsplit], ?_⟩
            intro j hj
            rcases List.mem_cons.mp hj with hj | hj
            · subst hj
              by_cases h1 : 0 ≤ j.t
              · exact Or.inr (lt_of_lt_of_le hlt (hx h1))
              · exact Or.inl (lt_of_not_le h1)
            · exact hcond j hj

/-- C5: `hit` returns nothing exactly when every record has negative t;
otherwise it returns a record with non-negative t (never a negative-t
record) whose t is minimal among the non-negative entries, and every
record before it in the sequence is either negative or strictly larger —
equal-minimum ties go to the first-encountered record. -/
theorem hit_lowest_nonnegative :
    ∀ xs : List Intersection,
      (Intersection.hit xs = none ↔ ∀ i ∈ xs, i.t < 0) ∧
      (∀ i, Intersection.hit xs = some i →
        0 ≤ i.t ∧ (∀ j ∈ xs, 0 ≤ j.t → i.t ≤ j.t) ∧
        ∃ l1 l2, xs = l1 ++ i :: l2 ∧ ∀ j ∈ l1, j.t < 0 ∨ i.t < j.t) := by
  intro xs
  induction xs with
  | nil =>
      exact ⟨by simp [Intersection.hit, hitLoop],
             fun i h => by simp [Intersection.hit, hitLoop] at h⟩
  | cons x rest ih =>
      by_cases hx : 0 ≤ x.t
      · have hh : Intersection.hit (x :: rest) =
            some (rest.foldl (fun c i => if 0 ≤ i.t ∧ i.t < c.t then i else c) x) := by
          show hitLoop (x :: rest) none = _
          simp only [hitLoop, if_pos hx, ite_self]
          exact hitLoop_some rest x
        obtain ⟨h0, hle, hall, hdec⟩ := hitFold_spec rest x hx _ rfl
        constructor
        · rw [hh]
          constructor
          · intro h; exact absurd h (Option.some_ne_none _)
          · intro h; exact absurd (h x (by simp)) (not_lt.mpr hx)
        · intro i hi
          rw [hh, Option.some_inj] at hi
          subst hi
          refine ⟨h0, ?_, ?_⟩
          · intro j hj hjt
            rcases List.mem_cons.mp hj with hj | hj
            · exact hj ▸ hle
            · exact hall j hj hjt
          · rcases hdec with heq | ⟨hlt, l1, l2, hsplit, hcond⟩
            · exact ⟨[], rest, by rw [heq]; rfl, by simp⟩
            · refine ⟨x :: l1, l2, by rw [List.cons_append, ← hsplit], ?_⟩
              intro j hj
              rcases List.mem_cons.mp hj with hj | hj
              · exact Or.inr (hj ▸ hlt)
              · exact hcond j hj
      · have hh : Intersection.hit (x :: rest) = Intersection.hit rest := by
          show hitLoop (x :: rest) none = hitLoop rest none
          simp [hitLoop, hx]
        constructor
        · rw [hh, ih.1]
          constructor
          · intro h j hj
            rcases List.mem_cons.mp hj with hj | hj
            · exact hj ▸ lt_of_not_le hx
            · exact h j hj
          · intro h j hj
            exact h j (by simp [hj])
        · intro i hi
          rw [hh] at hi
          obtain ⟨h0, hall, l1, l2, hsplit, hcond⟩ := (ih.2) i hi
          refine ⟨h0, ?_, x :: l1, l2, by simp [hsplit], ?_⟩
          · intro j hj hjt
            rcases List.mem_cons.mp hj with hj | hj
            · exact absurd (hj ▸ hjt) hx
            · exact hall j hj hjt
          · intro j hj
            rcases List.mem_cons.mp hj with hj | hj
            · exact Or.inl (hj ▸ lt_of_not_le hx)
            · exact hcond j hj

/-- Witness for C5: on the concrete list with t values 7, -3, 2, 2 the hit
is the first record with t = 2, and the characterization holds there. -/
theorem hit_lowest_nonnegative_witness :
    0 ≤ (Intersection.new 2 (Shape.sphere 0)).t ∧
    (∀ j ∈ xsHit, 0 ≤ j.t → (Intersection.new 2 (Shape.sphere 0)).t ≤ j.t) ∧
    ∃ l1 l2, xsHit = l1 ++ Intersection.new 2 (Shape.sphere 0) :: l2 ∧
      ∀ j ∈ l1, j.t < 0 ∨ (Intersection.new 2 (Shape.sphere 0)).t < j.t := by
  have hres : Intersection.hit xsHit = some (Intersection.new 2 (Shape.sphere 0)) := by
    norm_num [Intersection.hit, hitLoop, Intersection.new, xsHit]
  exact (hit_lowest_nonnegative xsHit).2 _ hres

/-- C7: the recursive shading family terminates through the strictly
decreasing depth budget (the four functions are total by that measure):
`reflected_color` returns black whenever the budget is exhausted
regardless of the material, `refracted_color` returns black at budget
zero, and outside the black guards each of the two casts one secondary ray
with budget `remaining - 1`, so an initial budget of d spawns at most d
generations of secondary rays. -/
theorem shading_recursion_depth :
    (∀ (ops : FloatOps) (w : World) (comps : Computations),
        World.reflected_color ops w comps 0 = pure black) ∧
    (∀ (ops : FloatOps) (w : World) (comps : Computations),
        World.refracted_color ops w comps 0 = pure black) ∧
    (∀ (ops : FloatOps) (w : World) (comps : Computations) (remaining : ℕ),
        ¬ remaining < 1 → comps.object.material.reflective ≠ 0 →
        World.reflected_color ops w comps remaining =
          (World.color_at ops w (Ray.new comps.over_point comps.reflectv)
              (remaining - 1)).map (fun c : Color => c * comps.object.material.reflective)) ∧
    (∀ (ops : FloatOps) (w : World) (comps : Computations) (remaining : ℕ),
        remaining ≠ 0 → comps.object.material.transparency ≠ 0 →
        ¬ ((comps.n1 / comps.n2) ^ 2 * (1 - comps.eyev.dot comps.normalv ^ 2) > 1) →
        World.refracted_color ops w comps remaining =
          (World.color_at ops w
              (Ray.new comps.under_point
                (comps.normalv * ((comps.n1 / comps.n2) * comps.eyev.dot comps.normalv -
                    ops.sqrtf (1 - (comps.n1 / comps.n2) ^ 2 *
                      (1 - comps.eyev.dot comps.normalv ^ 2))) -
                 comps.eyev * (comps.n1 / comps.n2)))
              (remaining - 1)).map (fun c : Color => c * comps.object.material.transparency)) := by
  refine ⟨?_, ?_, ?_, ?_⟩
  · intro ops w comps
    rw [World.reflected_color]
    simp
  · intro ops w comps
    rw [World.refracted_color]
    simp
  · intro ops w comps remaining h1 h2
    rw [World.reflected_color, dif_neg (not_or.mpr ⟨h1, h2⟩)]
    rcases hc : World.color_at ops w (Ray.new comps.over_point comps.reflectv)
        (remaining - 1) with _ | c <;> (simp only [hc]; rfl)
  · intro ops w comps remaining h1 h2 h3
    rw [World.refracted_color, dif_neg (by push_neg; exact ⟨h1, h2, le_of_not_lt h3⟩)]
    rcases hc : World.color_at ops w
        (Ray.new comps.under_point
          (comps.normalv * ((comps.n1 / comps.n2) * comps.eyev.dot comps.normalv -
              ops.sqrtf (1 - (comps.n1 / comps.n2) ^ 2 *
                (1 - comps.eyev.dot comps.normalv ^ 2))) -
           comps.eyev * (comps.n1 / comps.n2)))
        (remaining - 1) with _ | c <;> (simp only [hc]; rfl)

/-- Witness for C7: the base cases and both unfolding equations at the
concrete half-reflective half-transparent computation with budget 5. -/
theorem shading_recursion_depth_witness :
    World.reflected_color opsC wGlass compsW 0 = pure black ∧
    World.refracted_color opsC wGlass compsW 0 = pure black ∧
    World.reflected_color opsC wGlass compsW 5 =
      (World.color_at opsC wGlass (Ray.new compsW.over_point compsW.reflectv)
          (5 - 1)).map (fun c : Color => c * compsW.object.material.reflective) ∧
    World.refracted_color opsC wGlass compsW 5 =
      (World.color_at opsC wGlass
          (Ray.new compsW.under_point
            (compsW.normalv * ((compsW.n1 / compsW.n2) * compsW.eyev.dot compsW.normalv -
                opsC.sqrtf (1 - (compsW.n1 / compsW.n2) ^ 2 *
                  (1 - compsW.eyev.dot compsW.normalv ^ 2))) -
             compsW.eyev * (compsW.n1 / compsW.n2)))
          (5 - 1)).map (fun c : Color => c * compsW.object.material.transparency) := by
  refine ⟨shading_recursion_depth.1 opsC wGlass compsW,
          shading_recursion_depth.2.1 opsC wGlass compsW,
          shading_recursion_depth.2.2.1 opsC wGlass compsW 5 (by norm_num) ?_,
          shading_recursion_depth.2.2.2 opsC wGlass compsW 5 (by norm_num) ?_ ?_⟩
  · norm_num [compsW, Shape.sphere, Shape.new, Material.new]
  · norm_num [compsW, Shape.sphere, Shape.new, Material.new]
  · norm_num [compsW, RayTuple.dot, RayTuple.vector]

/-- C4 counterexample: for a plane rotated a quarter turn about z,
`normal_at` returns the untransformed local normal (0, 1, 0), while the
claimed inverse-transpose mapping gives (-1, 0, 0); the two are not equal
under the system's own epsilon equality, so the claim fails for the plane
kind under a non-identity transform. -/
theorem normal_at_plane_transform_claim_false :
    Shape.normal_at opsC planeRot (RayTuple.point 1 2 3) = some (RayTuple.vector 0 1 0)
    ∧ specNormalAt opsC planeRot (RayTuple.point 1 2 3) = some (RayTuple.vector (-1) 0 0)
    ∧ RayTuple.rtEqB (RayTuple.vector 0 1 0) (RayTuple.vector (-1) 0 0) = false := by
  refine ⟨?_, ?_, ?_⟩ <;>
    norm_num [Shape.normal_at, specNormalAt, planeRot, Shape.plane, Shape.new,
      localNormal, RayTuple.rtEqB,
      Matrix.inverse, Matrix.invertible, Matrix.determinant, Matrix.detFuel,
      Matrix.submatrix, Matrix.cofactor, Matrix.minor, Matrix.identity,
      Matrix.newMatrix4, Matrix.transpose, Matrix.set, List.range_succ, opsC,
      RayTuple.point, RayTuple.vector, RayTuple.normalize, RayTuple.magnitude, EPS]

/-- C4 amended: `normal_at` computes the local point through the inverse
transform for every kind, but only the Sphere and Test kinds map the local
normal to world space by the transpose of the inverse with w zeroed and
renormalize; the Plane, Cube and Cylinder kinds return the kind-specific
local normal directly (plane: constant (0,1,0); cube: signed component of
greatest absolute local coordinate; cylinder: (x, 0, z)), with no world
mapping and no renormalization. -/
theorem normal_at_kind_cases :
    ∀ (ops : FloatOps) (s : Shape) (p : RayTuple),
      ((s.shape_type = ShapeType.Sphere ∨ s.shape_type = ShapeType.Test) →
        s.normal_at ops p = specNormalAt ops s p) ∧
      ((s.shape_type = ShapeType.Plane ∨ s.shape_type = ShapeType.Cube ∨
        s.shape_type = ShapeType.Cylinder) →
        s.normal_at ops p =
          (s.transform.inverse).map (fun inv => localNormal s.shape_type (inv * p))) := by
  intro ops s p
  constructor
  · rintro (hk | hk) <;>
      rcases hinv : s.transform.inverse with _ | inv <;>
      simp [Shape.normal_at, specNormalAt, hinv, hk, localNormal]
  · rintro (hk | hk | hk) <;>
      rcases hinv : s.transform.inverse with _ | inv <;>
      simp [Shape.normal_at, specNormalAt, hinv, hk, localNormal]

/-- Witness for C4: the sphere arm agrees with the spec mapping and the
rotated plane returns its untransformed local normal, at concrete inputs. -/
theorem normal_at_kind_cases_witness :
    Shape.normal_at opsC (Shape.sphere 0) (RayTuple.point 0 0 1) =
      specNormalAt opsC (Shape.sphere 0) (RayTuple.point 0 0 1) ∧
    Shape.normal_at opsC planeRot (RayTuple.point 1 2 3) =
      (planeRot.transform.inverse).map
        (fun inv => localNormal planeRot.shape_type (inv * RayTuple.point 1 2 3)) :=
  ⟨(normal_at_kind_cases opsC (Shape.sphere 0) (RayTuple.point 0 0 1)).1 (Or.inl rfl),
   (normal_at_kind_cases opsC planeRot (RayTuple.point 1 2 3)).2 (Or.inl rfl)⟩

/-- IEEE `<` on two finite values is the rational comparison. -/
@[simp] theorem flt_num_num (x y : ℚ) : FVal.flt (.num x) (.num y) = decide (x < y) := rfl

/-- Every finite value is below positive infinity. -/
@[simp] theorem flt_num_inf (x : ℚ) : FVal.flt (.num x) .inf = true := rfl

/-- No finite value is below negative infinity. -/
@[simp] theorem flt_num_ninf (x : ℚ) : FVal.flt (.num x) .ninf = false := rfl

/-- Negative infinity is below every finite value. -/
@[simp] theorem flt_ninf_num (x : ℚ) : FVal.flt .ninf (.num x) = true := rfl

/-- Negative infinity is below positive infinity. -/
@[simp] theorem flt_ninf_inf : FVal.flt .ninf .inf = true := rfl

/-- Negative infinity is not below itself. -/
@[simp] theorem flt_ninf_ninf : FVal.flt .ninf .ninf = false := rfl

/-- Positive infinity is below nothing. -/
@[simp] theorem flt_inf_any (y : FVal) : FVal.flt .inf y = false := by cases y <;> rfl

/-- NaN compares below nothing. -/
@[simp] theorem flt_nan_left (y : FVal) : FVal.flt .nan y = false := by cases y <;> rfl

/-- Nothing compares below NaN. -/
@[simp] theorem flt_nan_right (x : FVal) : FVal.flt x .nan = false := by cases x <;> rfl

/-- Helper for C8: away from NaN the source's three-way comparison chain
for the overall tmin computes the maximum of the three values. -/
theorem chainMax (a b c : FVal) (ha : a ≠ FVal.nan) (hb : b ≠ FVal.nan)
    (hc : c ≠ FVal.nan) :
    (if FVal.fgt a b then (if FVal.fgt a c then a else c)
     else (if FVal.fgt b c then b else c)) = fmax (fmax a b) c := by
  cases a <;> cases b <;> cases c <;>
    simp_all [FVal.fgt, fmax] <;>
    (try split_ifs) <;>
    simp_all <;>
    (try linarith)

/-- Helper for C8: away from NaN the source's three-way comparison chain
for the overall tmax computes the minimum of the three values. -/
theorem chainMin (a b c : FVal) (ha : a ≠ FVal.nan) (hb : b ≠ FVal.nan)
    (hc : c ≠ FVal.nan) :
    (if FVal.flt a b then (if FVal.flt a c then a else c)
     else (if FVal.flt b c then b else c)) = fmin (fmin a b) c := by
  cases a <;> cases b <;> cases c <;>
    simp_all [FVal.fgt, fmin] <;>
    (try split_ifs) <;>
    simp_all <;>
    (try linarith)

/-- Helper for C8: on a nonzero numerator the IEEE infinity product agrees
with the claim's sign-preserving reading. -/
theorem mulInf_eq_spec (q : ℚ) (hq : q ≠ 0) : FVal.mulInf q = mulInfSpec q := by
  unfold FVal.mulInf mulInfSpec
  rcases lt_trichotomy q 0 with h | h | h
  · rw [if_neg (by linarith), if_pos h, if_pos h]
  · exact absurd h hq
  · rw [if_pos h, if_neg (by linarith)]

/-- Helper for C8: the claim-side infinity product is never NaN. -/
theorem mulInfSpec_ne_nan (q : ℚ) : mulInfSpec q ≠ FVal.nan := by
  unfold mulInfSpec
  split_ifs <;> simp

/-- Helper for C8: when the axis divides, or multiplies two nonzero
numerators by infinity, the source slab pair equals the claim's pair and
carries no NaN. -/
theorem check_axis_eq (o d : ℚ)
    (h : |d| ≥ EPS ∨ (-1 - o ≠ 0 ∧ 1 - o ≠ 0)) :
    check_axis o d = check_axisSpec o d ∧
    (check_axis o d).1 ≠ FVal.nan ∧ (check_axis o d).2 ≠ FVal.nan := by
  by_cases hd : |d| ≥ EPS
  · refine ⟨by simp [check_axis, check_axisSpec, hd], ?_, ?_⟩ <;>
      (simp only [check_axis, if_pos hd]; split_ifs <;> simp)
  · have hnum : -1 - o ≠ 0 ∧ 1 - o ≠ 0 := h.resolve_left hd
    have e1 : FVal.mulInf (-1 - o) = mulInfSpec (-1 - o) := mulInf_eq_spec _ hnum.1
    have e2 : FVal.mulInf (1 - o) = mulInfSpec (1 - o) := mulInf_eq_spec _ hnum.2
    refine ⟨?_, ?_, ?_⟩
    · simp only [check_axis, check_axisSpec, if_neg hd, e1, e2]
    · simp only [check_axis, if_neg hd, e1, e2]
      split_ifs <;> simp [mulInfSpec_ne_nan]
    · simp only [check_axis, if_neg hd, e1, e2]
      split_ifs <;> simp [mulInfSpec_ne_nan]

/-- C8 counterexample: the ray from (-5, 1/2, 1) along +x grazes the cube
face z = 1: the z-axis tmax numerator is zero, its infinity product is NaN,
the comparison chain (all NaN comparisons false) selects that NaN, and the
code returns the hits (4, NaN) — while the claim's sign-preserving slab
reading (per-axis tmaxes 6, +inf, +inf; overall tmax their minimum) gives
the hits (4, 6).  The claim as stated is therefore false for rays grazing
along a face. -/
theorem cube_graze_nan_claim_false :
    cubeLocal (RayTuple.point (-5) (1 / 2) 1) (RayTuple.vector 1 0 0) =
      [FVal.num 4, FVal.nan]
    ∧ cubeSlabSpec (RayTuple.point (-5) (1 / 2) 1) (RayTuple.vector 1 0 0) =
      [FVal.num 4, FVal.num 6]
    ∧ ([FVal.num 4, FVal.nan] : List FVal) ≠ [FVal.num 4, FVal.num 6] := by
  refine ⟨?_, ?_, by simp⟩ <;>
    norm_num [cubeLocal, cubeSlabSpec, check_axis, check_axisSpec, FVal.mulInf,
      mulInfSpec, FVal.fgt, fmax, fmin, RayTuple.point, RayTuple.vector, EPS]

/-- C8 amended: whenever every axis either divides (direction magnitude at
least epsilon) or has both slab numerators nonzero — so no per-axis value
is the NaN of a zero numerator times infinity — the cube slab test equals
the claim's description: per-axis pairs by division or sign-preserved
infinities, overall tmin the maximum of the three tmins, overall tmax the
minimum of the three tmaxes, no hits when tmin exceeds tmax and otherwise
exactly the two hits (tmin, tmax). -/
theorem cube_slab_minmax :
    ∀ origin direction : RayTuple,
      (|direction.x| ≥ EPS ∨ (-1 - origin.x ≠ 0 ∧ 1 - origin.x ≠ 0)) →
      (|direction.y| ≥ EPS ∨ (-1 - origin.y ≠ 0 ∧ 1 - origin.y ≠ 0)) →
      (|direction.z| ≥ EPS ∨ (-1 - origin.z ≠ 0 ∧ 1 - origin.z ≠ 0)) →
      cubeLocal origin direction = cubeSlabSpec origin direction := by
  intro o d hx hy hz
  obtain ⟨ex, nx1, nx2⟩ := check_axis_eq o.x d.x hx
  obtain ⟨ey, ny1, ny2⟩ := check_axis_eq o.y d.y hy
  obtain ⟨ez, nz1, nz2⟩ := check_axis_eq o.z d.z hz
  unfold cubeLocal cubeSlabSpec
  rw [← ex, ← ey, ← ez]
  dsimp only
  rw [chainMax _ _ _ nx1 ny1 nz1, chainMin _ _ _ nx2 ny2 nz2]

/-- Witness for C8: a ray with two epsilon-small axes but origin strictly
inside both slabs satisfies the hypotheses, and the slab test matches the
min/max description there. -/
theorem cube_slab_minmax_witness :
    cubeLocal (RayTuple.point (1 / 2) 0 (-5)) (RayTuple.vector 0 0 1) =
      cubeSlabSpec (RayTuple.point (1 / 2) 0 (-5)) (RayTuple.vector 0 0 1) := by
  apply cube_slab_minmax <;> norm_num [RayTuple.point, RayTuple.vector, EPS]

end RayT
